import Mathlib

/-!
Verification of the diagnostic extraction engine of `side-quest-runners`:
the bun test-output parser (`parseBunTestOutput` / `parseFailureDetails`,
current and historical versions), the TypeScript compiler-output parser
(`parseTscOutput`), and the Biome JSON diagnostic normalizer
(`parseBiomeOutput`).

The TypeScript sources are shallowly embedded over `List Char` / `String`.
JavaScript regular expressions are embedded as explicit scanning functions
that reproduce the leftmost-match, greedy/lazy backtracking behaviour of
the concrete patterns used by the source (documented at each definition).
-/

namespace SideQuest

/-- Whitespace class used to model JavaScript's `\s` and `String.prototype.trim`
(ASCII part; the inputs handled by the parsers contain no exotic Unicode
whitespace). -/
def isWS (c : Char) : Bool :=
  c = ' ' || c = '\t' || c = '\n' || c = '\r' || c = Char.ofNat 11 || c = Char.ofNat 12

/-- Value of `Number.parseInt(s, 10)` on a non-empty all-digit capture. -/
def digitsToNat (ds : List Char) : Nat :=
  ds.foldl (fun a c => a * 10 + (c.toNat - '0'.toNat)) 0

/-- Model of `String.prototype.split('\n')`: `"a\nb"` becomes `["a","b"]`,
the empty string becomes `[""]`, separators at the ends produce empty pieces. -/
def splitNl : List Char → List (List Char)
  | [] => [[]]
  | c :: cs =>
    if c = '\n' then [] :: splitNl cs
    else
      match splitNl cs with
      | [] => [[c]]
      | l :: ls => (c :: l) :: ls

/-- Model of `String.prototype.trim()` on the character list of a line. -/
def jsTrimL (l : List Char) : List Char :=
  ((l.dropWhile isWS).reverse.dropWhile isWS).reverse

/-- Model of `String.prototype.trim()`. -/
def jsTrim (s : String) : String :=
  String.mk (jsTrimL s.toList)

/-- Model of `output.match(/(\d+) tok/)` followed by `parseInt` of the capture:
returns the value of the leftmost maximal digit run that is immediately
followed by the literal `tok` (e.g. `tok = " pass"`), scanning start positions
left to right exactly as the regex engine does. -/
def firstNumToken (tok : List Char) : List Char → Option Nat
  | [] => none
  | c :: cs =>
    if c.isDigit then
      let run := (c :: cs).takeWhile Char.isDigit
      let rest := (c :: cs).dropWhile Char.isDigit
      if tok.isPrefixOf rest then some (digitsToNat run)
      else firstNumToken tok cs
    else firstNumToken tok cs

/-- Tail matcher for the final `\s+\[` of the terminal-marker regex: a maximal
whitespace run of length at least one, immediately followed by `[` (the only
backtracking-reachable possibility, since a shortened run would leave a
whitespace character where `[` is required). -/
def wsThenBracket (r : List Char) : Bool :=
  let k := (r.takeWhile isWS).length
  decide (1 ≤ k) &&
    (match r.drop k with
     | '[' :: _ => true
     | _ => false)

/-- Lazy capture loop for the `(.+?)` of `/\(fail\)\s+(.+?)\s+\[/`: the capture
grows one character at a time (shortest first) until `\s+\[` matches right
after it. -/
def failCapLoop (pre : List Char) : List Char → Option (List Char)
  | [] => none
  | c :: rest =>
    if wsThenBracket rest then some (pre ++ [c])
    else failCapLoop (pre ++ [c]) rest

/-- Backtracking over the leading `\s+` of the terminal-marker regex: the
greedy run is tried longest first, shrinking to one character. -/
def failTailW (r : List Char) : Nat → Option (List Char)
  | 0 => none
  | w + 1 =>
    match failCapLoop [] (r.drop (w + 1)) with
    | some cap => some cap
    | none => failTailW r w

/-- Matcher for `\s+(.+?)\s+\[` applied right after a `(fail)` literal. -/
def failTailMatch (r : List Char) : Option (List Char) :=
  failTailW r (r.takeWhile isWS).length

/-- Model of `line.match(/\(fail\)\s+(.+?)\s+\[/)`: leftmost occurrence of the
literal `(fail)` whose tail matches; on failure the engine resumes scanning at
the next character. Returns the lazily-captured test name. -/
def failNameScan : List Char → Option (List Char)
  | [] => none
  | c :: cs =>
    if ['(', 'f', 'a', 'i', 'l', ')'].isPrefixOf (c :: cs) then
      match failTailMatch ((c :: cs).drop 6) with
      | some cap => some cap
      | none => failNameScan cs
    else failNameScan cs

/-- Matcher for a literal `:` followed by a maximal digit run (at least one
digit), as produced by `:(\d+)` under greedy backtracking: a shortened run
would leave a digit where the next literal is required, so only the maximal
run can ever participate in a match. Returns the parsed number and the rest. -/
def colonNum : List Char → Option (Nat × List Char)
  | ':' :: rest =>
    let ds := rest.takeWhile Char.isDigit
    if ds.isEmpty then none
    else some (digitsToNat ds, rest.drop ds.length)
  | _ => none

/-- Greedy capture search for the tail of `/\((.+):(\d+):(\d+)\)/` after the
opening parenthesis: the `(.+)` capture is tried longest first (greedy), and
must be followed by `:(\d+):(\d+))`. `n` is the current candidate capture
length. -/
def parenTailGo (r : List Char) : Nat → Option (List Char × Nat × Nat)
  | 0 => none
  | n + 1 =>
    match colonNum (r.drop (n + 1)) with
    | some (l1, r2) =>
      match colonNum r2 with
      | some (l2, r3) =>
        match r3 with
        | ')' :: _ => some (r.take (n + 1), l1, l2)
        | _ => parenTailGo r n
      | none => parenTailGo r n
    | none => parenTailGo r n

/-- Tail of the parenthesised stack-frame regex after `\(`. -/
def parenTail (r : List Char) : Option (List Char × Nat × Nat) :=
  parenTailGo r r.length

/-- Model of `line.match(/\((.+):(\d+):(\d+)\)/)`: leftmost `(` whose tail
matches, scanning resumes one character further on failure. Returns the
captured path and the two parsed numbers (line, column). -/
def locParen : List Char → Option (List Char × Nat × Nat)
  | [] => none
  | '(' :: rest =>
    (match parenTail rest with
     | some t => some t
     | none => locParen rest)
  | _ :: rest => locParen rest

/-- Greedy capture search for the tail of `/at (.+):(\d+):(\d+)/` after the
literal `at `: like `parenTailGo` but with no closing parenthesis required. -/
def bareTailGo (r : List Char) : Nat → Option (List Char × Nat × Nat)
  | 0 => none
  | n + 1 =>
    match colonNum (r.drop (n + 1)) with
    | some (l1, r2) =>
      match colonNum r2 with
      | some (l2, _) => some (r.take (n + 1), l1, l2)
      | none => bareTailGo r n
    | none => bareTailGo r n

/-- Tail of the bare stack-frame regex after `at `. -/
def bareTail (r : List Char) : Option (List Char × Nat × Nat) :=
  bareTailGo r r.length

/-- Model of `line.match(/at (.+):(\d+):(\d+)/)`: leftmost occurrence of the
literal `at ` whose tail matches. -/
def locBare : List Char → Option (List Char × Nat × Nat)
  | [] => none
  | 'a' :: 't' :: ' ' :: rest =>
    (match bareTail rest with
     | some t => some t
     | none => locBare ('t' :: ' ' :: rest))
  | _ :: rest => locBare rest

/-- Model of `line.match(/^\d+ \| /)` being non-null: the line starts with a
maximal digit run (at least one digit) followed by the literal `" | "`
(echoed source-context lines such as `3 | test(...)`). -/
def isSourceCtx (l : List Char) : Bool :=
  let ds := l.takeWhile Char.isDigit
  !ds.isEmpty && [' ', '|', ' '].isPrefixOf (l.drop ds.length)

/-- Record type of the `TestFailure` interface from `parse-utils`. `line` and
`stack` are optional fields (absent until assigned). -/
structure TestFailure where
  file : String
  message : String
  line : Option Nat := none
  stack : Option String := none
deriving Repr, DecidableEq

/-- Record type of the `TestSummary` interface from `parse-utils`. -/
structure TestSummary where
  passed : Nat
  failed : Nat
  total : Nat
  failures : List TestFailure
deriving Repr, DecidableEq

/-- Loop body of `parseFailureDetails` (identical, line for line, in the
current and the historical version of `parse-utils`): one step of the state
machine over a single output line. The state is the list of committed
failures together with the currently open failure accumulator (if any). -/
def stepLine (st : List TestFailure × Option TestFailure) (line : List Char) :
    List TestFailure × Option TestFailure :=
  let (failures, current) := st
  if line.isEmpty then st
  else
    match failNameScan line with
    | some name =>
      -- "(fail) test name [0.21ms]" terminal marker: close an open block,
      -- splicing the captured test name into the front of its message.
      (match current with
       | some cf =>
         (failures ++ [{ cf with message := String.mk name ++ ": " ++ cf.message }], none)
       | none => st)
    | none =>
      if line.contains '✗' || ['F', 'A', 'I', 'L', ' '].isPrefixOf line then
        -- legacy start marker: commit any open block, open a fresh one
        (failures ++ current.toList, some { file := "unknown", message := String.mk (jsTrimL line) })
      else if ['e', 'r', 'r', 'o', 'r', ':'].isPrefixOf (jsTrimL line) then
        (match current with
         | some cf =>
           (failures, some { cf with message := cf.message ++ "\n" ++ String.mk (jsTrimL line) })
         | none =>
           -- tentative block seeded by an orphan diagnostic line
           (failures, some { file := "unknown", message := String.mk (jsTrimL line) }))
      else
        match current with
        | none => st
        | some cf =>
          if ['a', 't', ' '].isPrefixOf (jsTrimL line) then
            let cf1 :=
              match (match locParen line with
                     | some t => some t
                     | none => locBare line) with
              | some (f, ln, _col) => { cf with file := String.mk f, line := some ln }
              | none => cf
            (failures, some { cf1 with stack := some (cf1.stack.getD "" ++ String.mk line ++ "\n") })
          else if !(jsTrimL line).isEmpty && !isSourceCtx line then
            (failures, some { cf with message := cf.message ++ "\n" ++ String.mk (jsTrimL line) })
          else st

/-- Full line scan shared by both versions of the parser: committed failures
plus the block still open at end of input. -/
def scanFailureLines (lines : List (List Char)) : List TestFailure × Option TestFailure :=
  lines.foldl stepLine ([], none)

/-- Current `parseFailureDetails` (bun-runner `parse-utils`): a block still
open at end of input is flushed only if it was opened by a legacy start
marker, which the source detects by its accumulated message containing `✗`
or starting with `FAIL `. -/
def parseFailureDetails (output : String) : List TestFailure :=
  let (failures, current) := scanFailureLines (splitNl output.toList)
  match current with
  | some cf =>
    if cf.message.toList.contains '✗' || ['F', 'A', 'I', 'L', ' '].isPrefixOf cf.message.toList then
      failures ++ [cf]
    else failures
  | none => failures

/-- Current `parseBunTestOutput` (bun-runner `parse-utils`): the summary
trailer is extracted first; an explicit `0 fail` short-circuits with an empty
failures list; otherwise failure details are parsed and the trailer count,
when present, overrides the detail-derived count. -/
def parseBunTestOutput (output : String) : TestSummary :=
  let passed := (firstNumToken [' ', 'p', 'a', 's', 's'] output.toList).getD 0
  let failedFromSummary := firstNumToken [' ', 'f', 'a', 'i', 'l'] output.toList
  if failedFromSummary = some 0 then
    { passed := passed, failed := 0, total := passed, failures := [] }
  else
    let failures := parseFailureDetails output
    let failed := failedFromSummary.getD failures.length
    { passed := passed, failed := failed, total := passed + failed, failures := failures }

/-- Historical `parseBunTestOutput` (earlier revision of `parse-utils`): the
same line loop, but any block still open at end of input is committed
unconditionally, and summary counts are extracted afterwards with the
detail-derived count as fallback. -/
def parseBunTestOutputLegacy (output : String) : TestSummary :=
  let st := scanFailureLines (splitNl output.toList)
  let failures := st.1 ++ st.2.toList
  let passed := (firstNumToken [' ', 'p', 'a', 's', 's'] output.toList).getD 0
  let failed := (firstNumToken [' ', 'f', 'a', 'i', 'l'] output.toList).getD failures.length
  { passed := passed, failed := failed, total := passed + failed, failures := failures }

/-- Record type of the `TscError` interface from the tsc-runner. -/
structure TscError where
  file : String
  line : Nat
  col : Nat
  message : String
deriving Repr, DecidableEq

/-- Record type of the `TscParseResult` interface from the tsc-runner. -/
structure TscParseResult where
  errorCount : Nat
  errors : List TscError
deriving Repr, DecidableEq

/-- Consume a literal token at the head of the input, returning the rest. -/
def litTok (tok r : List Char) : Option (List Char) :=
  if tok.isPrefixOf r then some (r.drop tok.length) else none

/-- Consume a maximal nonempty digit run (a `\d+` whose following literal
forbids backtracking to a shorter run), returning the run and the rest. -/
def digitRun (r : List Char) : Option (List Char × List Char) :=
  if (r.takeWhile Char.isDigit).isEmpty then none
  else some (r.takeWhile Char.isDigit, r.drop (r.takeWhile Char.isDigit).length)

/-- Consume a maximal possibly-empty whitespace run (a `\s*` whose following
literal forbids backtracking to a shorter run). -/
def wsRun (r : List Char) : List Char :=
  r.drop (r.takeWhile isWS).length

/-- Consume a maximal nonempty whitespace run (a `\s+` whose following
literal forbids backtracking). -/
def wsRun1 (r : List Char) : Option (List Char) :=
  if (r.takeWhile isWS).isEmpty then none else some (wsRun r)

/-- Final `\s*(.+)$` of the tsc line regex: greedy `\s*` takes the maximal
whitespace run, giving one character back to `(.+)` only when the remainder
would otherwise be empty; `(.+)` then captures everything up to the line
end. -/
def tscMsg (r8 : List Char) : Option (List Char) :=
  if r8.isEmpty then none
  else
    if (r8.drop (r8.takeWhile isWS).length).isEmpty then
      some (r8.drop ((r8.takeWhile isWS).length - 1))
    else some (r8.drop (r8.takeWhile isWS).length)

/-- Deterministic tail of the per-line tsc regex
`\((\d+),(\d+)\):\s*error\s+TS\d+:\s*(.+)$` after the lazy file capture.
Each `\d+`/`\s*`/`\s+` is forced to its maximal run by the literal that
follows it (backtracking a run puts a member of the same class where the
literal is required). Returns the line-number digits, column digits and
message capture. -/
def tscTail (rest : List Char) : Option (List Char × List Char × List Char) := do
  let r1 ← litTok ['('] rest
  let (d1, r1b) ← digitRun r1
  let r2 ← litTok [','] r1b
  let (d2, r2b) ← digitRun r2
  let r3 ← litTok [')', ':'] r2b
  let r5 ← litTok ['e', 'r', 'r', 'o', 'r'] (wsRun r3)
  let r6 ← wsRun1 r5
  let r7 ← litTok ['T', 'S'] r6
  let (_d3, r7b) ← digitRun r7
  let r8 ← litTok [':'] r7b
  let msg ← tscMsg r8
  some (d1, d2, msg)

/-- Lazy `(.+?)` loop of the tsc line regex: anchored at the start of the
line, the file capture grows one character at a time (shortest first) until
the deterministic tail matches right after it. -/
def tscCapLoop (pre : List Char) : List Char → Option (List Char × List Char × List Char × List Char)
  | [] => none
  | c :: rest =>
    match tscTail rest with
    | some (d1, d2, msg) => some (pre ++ [c], d1, d2, msg)
    | none => tscCapLoop (pre ++ [c]) rest

/-- Model of one match of `/^(.+?)\((\d+),(\d+)\):\s*error\s+TS\d+:\s*(.+)$/`
against a single line (with the `m` flag, each match of the tsc regex is
anchored to one line of the output). Returns the raw captures
(file, line digits, column digits, message). -/
def tscLineCaps (l : List Char) : Option (List Char × List Char × List Char × List Char) :=
  tscCapLoop [] l

/-- One parsed error built from the captures of a matching line, as pushed by
the loop body of `parseTscOutput`. -/
def tscRecordOfLine (l : List Char) : Option TscError :=
  match tscLineCaps l with
  | some (f, d1, d2, msg) =>
    some { file := String.mk f, line := digitsToNat d1, col := digitsToNat d2,
           message := String.mk msg }
  | none => none

/-- Loop body of `parseTscOutput`: push a record for a match whose captures
are all truthy (non-empty), as the source's `if (file && line && col &&
message)` guard requires. -/
def tscStep (acc : List TscError) (l : List Char) : List TscError :=
  match tscLineCaps l with
  | some (f, d1, d2, msg) =>
    if !f.isEmpty && !d1.isEmpty && !d2.isEmpty && !msg.isEmpty then
      acc ++ [{ file := String.mk f, line := digitsToNat d1, col := digitsToNat d2,
                message := String.mk msg }]
    else acc
  | none => acc

/-- The tsc-runner's `parseTscOutput`: global scan of the output with the
line-anchored error pattern (the `gm`-flagged regex visits each line in input
order), collecting one `TscError` per match. -/
def parseTscOutput (output : String) : TscParseResult :=
  let errors := (splitNl output.toList).foldl tscStep []
  { errorCount := errors.length, errors := errors }

/-- Dynamic values manipulated by the Biome JSON normalizer: the result space
of `JSON.parse` extended with `undefined`, which property access on objects
lacking the key produces. -/
inductive JVal where
  | jundefined
  | jnull
  | jbool (b : Bool)
  | jnum (n : Int)
  | jstr (s : String)
  | jarr (xs : List JVal)
  | jobj (fields : List (String × JVal))
deriving Repr

/-- Property lookup on the field list of a parsed JSON object (`JSON.parse`
collapses duplicate keys, so field lists coming from a parse have unique
keys); a missing key yields `undefined`. -/
def jlookup (fields : List (String × JVal)) (k : String) : JVal :=
  match fields.find? (fun p => p.1 = k) with
  | some p => p.2
  | none => .jundefined

/-- Property access `v.k` on a value already known to be non-nullish, and
optional-chained access `v?.k`: objects look the key up, primitives and
arrays yield `undefined` for the report keys used here, nullish receivers
yield `undefined` (for `?.`). -/
def jgetOpt (v : JVal) (k : String) : JVal :=
  match v with
  | .jobj fs => jlookup fs k
  | _ => .jundefined

/-- JavaScript truthiness. -/
def jtruthy : JVal → Bool
  | .jundefined => false
  | .jnull => false
  | .jbool b => b
  | .jnum n => n ≠ 0
  | .jstr s => s ≠ ""
  | .jarr _ => true
  | .jobj _ => true

/-- Iteration `for (const d of v)`: arrays yield their elements, strings are
iterable character by character, every other value raises a `TypeError`
(captured by the surrounding `try`). -/
def jelems : JVal → Except Unit (List JVal)
  | .jarr xs => .ok xs
  | .jstr s => .ok (s.toList.map (fun c => .jstr (String.mk [c])))
  | _ => .error ()

/-- String quoting for the `JSON.stringify` model. -/
def jquote (s : String) : String :=
  "\"" ++ String.join (s.toList.map (fun c =>
    if c = '"' then "\\\""
    else if c = '\\' then "\\\\"
    else if c = '\n' then "\\n"
    else String.mk [c])) ++ "\""

/-- Model of `JSON.stringify` on parsed JSON values (used by the normalizer
to serialize a diagnostic's `advice` payload). -/
def jstringify : JVal → String
  | .jundefined => "null"
  | .jnull => "null"
  | .jbool true => "true"
  | .jbool false => "false"
  | .jnum n => toString n
  | .jstr s => jquote s
  | .jarr xs => "[" ++ String.intercalate "," (xs.attach.map (fun x => jstringify x.1)) ++ "]"
  | .jobj fs =>
    "\x7b" ++
      String.intercalate ","
        (fs.attach.map (fun p => jquote p.1.1 ++ ":" ++ jstringify p.1.2)) ++
    "\x7d"
decreasing_by
  all_goals simp_wf
  all_goals first
    | (have hx := List.sizeOf_lt_of_mem x.2; omega)
    | (obtain ⟨⟨a, b⟩, hp⟩ := p; have hx := List.sizeOf_lt_of_mem hp; simp at hx ⊢; omega)

/-- Record type of the `LintDiagnostic` interface from the biome-runner.
Field values are dynamic (`JVal`): the source copies whatever the report
holds at each position, with `undefined` for an absent `suggestion`. The
`severity` field is the report's own severity value (always the string
`error` or `warning` for emitted diagnostics). -/
structure LintDiagnostic where
  file : JVal
  message : JVal
  code : JVal
  line : JVal
  severity : JVal
  suggestion : JVal
deriving Repr

/-- Record type of the `LintSummary` interface from the biome-runner. -/
structure LintSummary where
  error_count : JVal
  warning_count : JVal
  diagnostics : List LintDiagnostic
deriving Repr

/-- Per-diagnostic body of the `parseBiomeOutput` loop for a non-nullish
entry `d`: push a diagnostic exactly when `d.severity` is the string
`error` or `warning`, filling each field with the source's fallback chain
(`||` for file, line and category, `d.description || d.message` for the
message, a serialized `advice` for the suggestion when truthy). -/
def biomeEmitCore (d : JVal) : Option LintDiagnostic :=
  match jgetOpt d "severity" with
  | .jstr s =>
    if s = "error" || s = "warning" then
      let file := jgetOpt (jgetOpt (jgetOpt d "location") "path") "file"
      let ln := jgetOpt (jgetOpt (jgetOpt (jgetOpt d "location") "span") "start") "line"
      let desc := jgetOpt d "description"
      let cat := jgetOpt d "category"
      let adv := jgetOpt d "advice"
      some { file := if jtruthy file then file else .jstr "unknown"
             line := if jtruthy ln then ln else .jnum 0
             message := if jtruthy desc then desc else jgetOpt d "message"
             code := if jtruthy cat then cat else .jstr "unknown"
             severity := .jstr s
             suggestion := if jtruthy adv then .jstr (jstringify adv) else .jundefined }
    else none
  | _ => none

/-- Per-diagnostic loop body with the one way it can raise: accessing
`d.severity` on a nullish entry throws a `TypeError` (captured by the
surrounding `try`); on every other value the body completes. -/
def biomeEmit (d : JVal) : Except Unit (Option LintDiagnostic) :=
  match d with
  | .jundefined => .error ()
  | .jnull => .error ()
  | _ => .ok (biomeEmitCore d)

/-- The `for (const d of report.diagnostics)` loop of `parseBiomeOutput`,
pushing emitted diagnostics in input order. -/
def biomeDiagLoop : List JVal → Except Unit (List LintDiagnostic)
  | [] => .ok []
  | d :: rest => do
    let o ← biomeEmit d
    let tail ← biomeDiagLoop rest
    match o with
    | some diag => .ok (diag :: tail)
    | none => .ok tail

/-- Count of emitted diagnostics with the given severity string, as computed
by the source's `diagnostics.filter((d) => d.severity === sev).length`. -/
def sevCount (sev : String) (ds : List LintDiagnostic) : Nat :=
  (ds.filter (fun d =>
    match d.severity with
    | .jstr t => t = sev
    | _ => false)).length

/-- Body of the `try` block of `parseBiomeOutput`, applied to the value
returned by `JSON.parse`: iterate `report.diagnostics` when truthy, then
derive the counts, preferring `report.summary`'s own `errors`/`warnings`
(nullish-coalescing) over counting the emitted diagnostics. A `TypeError`
from property access on a nullish report, or from iterating a non-iterable
truthy `diagnostics` value, is the error case. -/
def biomeNormalize (report : JVal) : Except Unit LintSummary := do
  match report with
  | .jundefined => .error ()
  | .jnull => .error ()
  | _ =>
    let diagsField := jgetOpt report "diagnostics"
    let diagnostics ←
      if jtruthy diagsField then do
        let elems ← jelems diagsField
        biomeDiagLoop elems
      else .ok []
    let summaryField := jgetOpt report "summary"
    let summary := if jtruthy summaryField then summaryField else .jobj []
    let errsJ := jgetOpt summary "errors"
    let warnsJ := jgetOpt summary "warnings"
    .ok
      { error_count :=
          match errsJ with
          | .jundefined => .jnum (sevCount "error" diagnostics)
          | .jnull => .jnum (sevCount "error" diagnostics)
          | v => v
        warning_count :=
          match warnsJ with
          | .jundefined => .jnum (sevCount "warning" diagnostics)
          | .jnull => .jnum (sevCount "warning" diagnostics)
          | v => v
        diagnostics := diagnostics }

/-- The synthetic degraded result of the `catch` branch of
`parseBiomeOutput`: one internal-error diagnostic whose message embeds the
first 200 characters of the raw input. -/
def parseBiomeSynthetic (stdout : String) : LintSummary :=
  { error_count := .jnum 1
    warning_count := .jnum 0
    diagnostics :=
      [{ file := .jstr "unknown"
         message := .jstr ("Failed to parse Biome JSON output: " ++ String.mk (stdout.toList.take 200))
         code := .jstr "internal_error"
         line := .jnum 0
         severity := .jstr "error"
         suggestion := .jundefined }] }

/-- The biome-runner's `parseBiomeOutput`. `JSON.parse` is a JavaScript
builtin and is abstracted as the `parsed` argument: `none` when
`JSON.parse stdout` throws, `some report` when it yields `report`. Any
failure — of the parse itself or of the `try` body on the parsed value —
degrades to the synthetic single-diagnostic result. -/
def parseBiomeOutput (parsed : Option JVal) (stdout : String) : LintSummary :=
  match parsed with
  | none => parseBiomeSynthetic stdout
  | some report =>
    match biomeNormalize report with
    | .ok r => r
    | .error _ => parseBiomeSynthetic stdout

/-! Theorems about the Bun test-output parser. -/

/-- C1: whenever the extracted fail-count trailer token of the input is zero
(the first `(\d+) fail` match parses to `0`), `parseBunTestOutput` returns
the trailer's pass count with `failed = 0`, `total = passed` and an empty
failures list — regardless of anything else in the body, stray `error:`
lines included; detailed block parsing contributes nothing to the result. -/
theorem bun_zero_fail_short_circuit (s : String)
    (h : firstNumToken [' ', 'f', 'a', 'i', 'l'] s.toList = some 0) :
    parseBunTestOutput s =
      { passed := (firstNumToken [' ', 'p', 'a', 's', 's'] s.toList).getD 0
        failed := 0
        total := (firstNumToken [' ', 'p', 'a', 's', 's'] s.toList).getD 0
        failures := [] } := by
  unfold parseBunTestOutput
  rw [h]
  simp

/-- Witness for `bun_zero_fail_short_circuit` at a concrete input whose body
contains a stray `error:` line with no closing marker. -/
theorem bun_zero_fail_short_circuit_witness :
    firstNumToken [' ', 'f', 'a', 'i', 'l'] ("3 pass\n0 fail\nerror: stray").toList = some 0 ∧
    parseBunTestOutput "3 pass\n0 fail\nerror: stray" =
      { passed := 3, failed := 0, total := 3, failures := [] } :=
  ⟨by decide, (bun_zero_fail_short_circuit _ (by decide)).trans (by decide)⟩

/-- C2: the code contradicts the claimed (and self-documented) discard
policy. On the input `"error: noise\n✗ real test\n1 fail"` the block that was
only tentatively opened by the orphan diagnostic line `error: noise` is
committed to the failures list when the `✗` start marker arrives, even
though no `(fail)` terminal marker ever closed it. -/
theorem bun_orphan_block_committed_on_start_marker :
    (parseBunTestOutput "error: noise\n✗ real test\n1 fail").failures =
      [{ file := "unknown", message := "error: noise" },
       { file := "unknown", message := "✗ real test\n1 fail" }] := by
  decide

/-- C3 counterexample: on an input whose open block sees two resolving stack
frames, the first frame does resolve (to `a.ts`, line 1), yet the block's
final location is that of the second frame (`b.ts`, line 3) — the location
is not "set by the first resolving frame only". -/
theorem bun_first_frame_wins_counterexample :
    locParen "at f (a.ts:1:2)".toList = some ("a.ts".toList, 1, 2) ∧
    (parseBunTestOutput "✗ t\nat f (a.ts:1:2)\nat g (b.ts:3:4)\n1 fail").failures =
      [{ file := "b.ts", message := "✗ t\n1 fail", line := some 3,
         stack := some "at f (a.ts:1:2)\nat g (b.ts:3:4)\n" }] ∧
    (parseBunTestOutput "✗ t\nat f (a.ts:1:2)\nat g (b.ts:3:4)\n1 fail").failures.map
      TestFailure.file ≠ ["a.ts"] := by
  refine ⟨by decide, by decide, by decide⟩

/-- C3 amended: while a block is open, every stack-frame line whose location
resolves sets the block's `file` and `line` to that frame's values —
overwriting any previously resolved location, so the last resolving frame
wins — and the raw line is appended to the accumulated stack text. -/
theorem bun_resolving_frame_overwrites (acc : List TestFailure) (cf : TestFailure)
    (line f : List Char) (ln c : Nat)
    (hne : line.isEmpty = false)
    (h1 : failNameScan line = none)
    (h2 : line.contains '✗' = false)
    (h3 : ['F', 'A', 'I', 'L', ' '].isPrefixOf line = false)
    (h4 : ['e', 'r', 'r', 'o', 'r', ':'].isPrefixOf (jsTrimL line) = false)
    (h5 : ['a', 't', ' '].isPrefixOf (jsTrimL line) = true)
    (h6 : (match locParen line with
           | some t => some t
           | none => locBare line) = some (f, ln, c)) :
    stepLine (acc, some cf) line =
      (acc, some { cf with
                    file := String.mk f
                    line := some ln
                    stack := some (cf.stack.getD "" ++ String.mk line ++ "\n") }) := by
  simp only [stepLine, hne, h1, h2, h3, h4, h5, h6]
  rfl

/-- Witness for `bun_resolving_frame_overwrites`: a block whose location was
already resolved to `a.ts:1` is overwritten to `b.ts:3` by a later resolving
frame. -/
theorem bun_resolving_frame_overwrites_witness :
    stepLine
      ([], some { file := "a.ts", message := "m", line := some 1,
                  stack := some "at f (a.ts:1:2)\n" })
      "at g (b.ts:3:4)".toList =
      ([], some { file := "b.ts", message := "m", line := some 3,
                  stack := some "at f (a.ts:1:2)\nat g (b.ts:3:4)\n" }) :=
  bun_resolving_frame_overwrites [] _ _ "b.ts".toList 3 4 (by decide) (by decide)
    (by decide) (by decide) (by decide) (by decide) (by decide)

/-- C4: for every input, `failed` is the trailer's fail count when a
`(\d+) fail` token is present and the length of the returned detailed
failures list otherwise, `passed` is the trailer's pass count when present
and `0` otherwise, and `total = passed + failed`. -/
theorem bun_summary_count_authority (s : String) :
    (parseBunTestOutput s).passed = (firstNumToken [' ', 'p', 'a', 's', 's'] s.toList).getD 0 ∧
    (parseBunTestOutput s).failed =
      (match firstNumToken [' ', 'f', 'a', 'i', 'l'] s.toList with
       | some n => n
       | none => (parseBunTestOutput s).failures.length) ∧
    (parseBunTestOutput s).total = (parseBunTestOutput s).passed + (parseBunTestOutput s).failed := by
  unfold parseBunTestOutput
  cases h : firstNumToken [' ', 'f', 'a', 'i', 'l'] s.toList with
  | none => simp
  | some n =>
    by_cases hn : n = 0
    · subst hn; simp
    · simp [hn]

/-- C5: the well-formed newer-format block — a diagnostic line, the stack
line `at <anon> (/p/f.ts:4:38)`, the terminal marker
`(fail) should fail [0.21ms]`, then a nonzero fail trailer — yields exactly
one failure with `file = /p/f.ts`, `line = 4` and the test name spliced into
the front of the diagnostic text; and, in general, a terminal-marker line
arriving while no block is open leaves the parser state unchanged (it never
opens a block by itself). -/
theorem bun_newer_format_block :
    (parseBunTestOutput
        "error: expected 1 to be 2\nat <anon> (/p/f.ts:4:38)\n(fail) should fail [0.21ms]\n1 fail").failures =
      [{ file := "/p/f.ts", message := "should fail: error: expected 1 to be 2",
         line := some 4, stack := some "at <anon> (/p/f.ts:4:38)\n" }] ∧
    (∀ (acc : List TestFailure) (line nm : List Char),
      failNameScan line = some nm → stepLine (acc, none) line = (acc, none)) := by
  constructor
  · decide
  · intro acc line nm h
    simp only [stepLine, h]
    split <;> rfl

/-- Witness for the general part of `bun_newer_format_block`: a concrete
terminal-marker line processed with no open block changes nothing. -/
theorem bun_newer_format_block_witness :
    failNameScan "(fail) x [1ms]".toList = some "x".toList ∧
    stepLine ([], none) "(fail) x [1ms]".toList = ([], none) :=
  ⟨by decide, bun_newer_format_block.2 [] _ "x".toList (by decide)⟩

/-- C9: whenever the input contains a fail trailer token, the historical
version of the parser (which committed any block still open at end of input)
and the current version agree on `passed`, `failed` and `total` — the counts
come from the trailer in both. -/
theorem bun_legacy_current_counts_agree (s : String) (n : Nat)
    (h : firstNumToken [' ', 'f', 'a', 'i', 'l'] s.toList = some n) :
    (parseBunTestOutputLegacy s).passed = (parseBunTestOutput s).passed ∧
    (parseBunTestOutputLegacy s).failed = (parseBunTestOutput s).failed ∧
    (parseBunTestOutputLegacy s).total = (parseBunTestOutput s).total := by
  unfold parseBunTestOutput parseBunTestOutputLegacy
  rw [h]
  by_cases hn : n = 0
  · subst hn; simp
  · simp [hn]

/-- Witness for `bun_legacy_current_counts_agree` at a concrete input with a
fail trailer, on which the two versions produce different failure lists but
the same counts. -/
theorem bun_legacy_current_counts_agree_witness :
    firstNumToken [' ', 'f', 'a', 'i', 'l'] ("error: console noise\n2 pass\n1 fail").toList = some 1 ∧
    (parseBunTestOutputLegacy "error: console noise\n2 pass\n1 fail").passed =
      (parseBunTestOutput "error: console noise\n2 pass\n1 fail").passed ∧
    (parseBunTestOutputLegacy "error: console noise\n2 pass\n1 fail").failed =
      (parseBunTestOutput "error: console noise\n2 pass\n1 fail").failed ∧
    (parseBunTestOutputLegacy "error: console noise\n2 pass\n1 fail").total =
      (parseBunTestOutput "error: console noise\n2 pass\n1 fail").total :=
  ⟨by decide, bun_legacy_current_counts_agree _ 1 (by decide)⟩

/-! Theorems about the TypeScript compiler-output parser. -/

/-- Helper: the length of a `takeWhile` prefix never exceeds the list's
length. -/
theorem length_takeWhile_le (p : Char → Bool) (r : List Char) :
    (r.takeWhile p).length ≤ r.length := by
  induction r with
  | nil => simp
  | cons a l ih =>
    rw [List.takeWhile_cons]
    split
    · simp
      omega
    · simp

/-- Helper: a digit-run capture is never empty. -/
theorem digitRun_ne (r ds r' : List Char) (h : digitRun r = some (ds, r')) : ds ≠ [] := by
  unfold digitRun at h
  split at h
  · exact absurd h (by simp)
  · next hc =>
    injection h with h1
    injection h1 with h2 _
    subst h2
    simpa using hc

/-- Helper: the message capture of the tsc line regex is never empty (when
`\s*` consumes the whole remainder it gives one character back to `(.+)`). -/
theorem tscMsg_ne (r m : List Char) (h : tscMsg r = some m) : m ≠ [] := by
  unfold tscMsg at h
  split at h
  · exact absurd h (by simp)
  · next hr =>
    split at h
    · next hd =>
      injection h with h1
      subst h1
      have hle : (r.takeWhile isWS).length ≤ r.length := length_takeWhile_le _ _
      have hlen : r.length ≤ (r.takeWhile isWS).length := by
        rw [List.isEmpty_iff, List.drop_eq_nil_iff] at hd
        exact hd
      have hpos : 0 < r.length := by
        cases r with
        | nil => simp at hr
        | cons a l => simp
      intro hnil
      rw [List.drop_eq_nil_iff] at hnil
      omega
    · next hd =>
      injection h with h1
      subst h1
      simpa [List.isEmpty_iff] using hd

/-- Helper: all three tail captures of a tsc line match are non-empty. -/
theorem tscTail_caps_ne (rest d1 d2 msg : List Char)
    (h : tscTail rest = some (d1, d2, msg)) :
    d1 ≠ [] ∧ d2 ≠ [] ∧ msg ≠ [] := by
  simp only [tscTail, bind, Option.bind_eq_some] at h
  obtain ⟨r1, -, ⟨da, ra⟩, hda, r2, -, ⟨db, rb⟩, hdb, r3, -, r5, -, r6, -, r7, -,
    ⟨dc, rc⟩, -, r8, -, m, hm, hfin⟩ := h
  injection hfin with h1
  injection h1 with hd1 h2
  injection h2 with hd2 hmsg
  subst hd1; subst hd2; subst hmsg
  exact ⟨digitRun_ne _ _ _ hda, digitRun_ne _ _ _ hdb, tscMsg_ne _ _ hm⟩

/-- Helper: all four captures of a matching tsc line are non-empty, so the
source's truthiness guard on the captures always passes. -/
theorem tscCapLoop_ne (l : List Char) : ∀ (pre f d1 d2 msg : List Char),
    tscCapLoop pre l = some (f, d1, d2, msg) → f ≠ [] ∧ d1 ≠ [] ∧ d2 ≠ [] ∧ msg ≠ [] := by
  induction l with
  | nil => intro pre f d1 d2 msg h; exact absurd h (by simp [tscCapLoop])
  | cons c rest ih =>
    intro pre f d1 d2 msg h
    unfold tscCapLoop at h
    cases ht : tscTail rest with
    | none =>
      rw [ht] at h
      exact ih (pre ++ [c]) f d1 d2 msg h
    | some t =>
      obtain ⟨e1, e2, e3⟩ := t
      rw [ht] at h
      simp only [Option.some.injEq, Prod.mk.injEq] at h
      obtain ⟨hf, hd1, hd2, hmsg⟩ := h
      subst hf; subst hd1; subst hd2; subst hmsg
      have hc := tscTail_caps_ne rest e1 e2 e3 ht
      exact ⟨by simp, hc.1, hc.2.1, hc.2.2⟩

/-- Helper: the collection loop of `parseTscOutput` produces exactly one
record per matching line, in input order. -/
theorem tscStep_foldl (ls : List (List Char)) (acc : List TscError) :
    ls.foldl tscStep acc = acc ++ ls.filterMap tscRecordOfLine := by
  induction ls generalizing acc with
  | nil => simp
  | cons l ls ih =>
    rw [List.foldl_cons, ih, List.filterMap_cons]
    cases h : tscLineCaps l with
    | none =>
      have hrec : tscRecordOfLine l = none := by unfold tscRecordOfLine; rw [h]
      rw [hrec]
      unfold tscStep
      rw [h]
    | some t =>
      obtain ⟨f, d1, d2, msg⟩ := t
      have hne := tscCapLoop_ne l [] f d1 d2 msg h
      have hrec : tscRecordOfLine l =
          some { file := String.mk f, line := digitsToNat d1, col := digitsToNat d2,
                 message := String.mk msg } := by
        unfold tscRecordOfLine; rw [h]
      rw [hrec]
      unfold tscStep
      rw [h]
      simp [List.isEmpty_iff, hne.1, hne.2.1, hne.2.2.1, hne.2.2.2]

/-- C6: every line matching the tsc error pattern yields exactly one error
record with positionally matching fields, in input order (`errors` is the
`filterMap` of the per-line matcher over the lines, and `errorCount` is its
length); input with no matching line yields `errorCount = 0` with an empty
list; and the two-line example extracts both records positionally. -/
theorem tsc_line_pattern_extraction (s : String) :
    (parseTscOutput s).errors = (splitNl s.toList).filterMap tscRecordOfLine ∧
    (parseTscOutput s).errorCount = ((splitNl s.toList).filterMap tscRecordOfLine).length ∧
    ((∀ l ∈ splitNl s.toList, tscLineCaps l = none) →
      parseTscOutput s = { errorCount := 0, errors := [] }) ∧
    parseTscOutput "src/index.ts(10,5): error TS2322: msgA\nsrc/utils.ts(20,3): error TS2345: msgB" =
      { errorCount := 2,
        errors := [{ file := "src/index.ts", line := 10, col := 5, message := "msgA" },
                   { file := "src/utils.ts", line := 20, col := 3, message := "msgB" }] } := by
  refine ⟨?_, ?_, ?_, by decide⟩
  · unfold parseTscOutput
    rw [tscStep_foldl]
    simp
  · unfold parseTscOutput
    rw [tscStep_foldl]
    simp
  · intro hall
    unfold parseTscOutput
    rw [tscStep_foldl]
    have hnil : (splitNl s.toList).filterMap tscRecordOfLine = [] := by
      rw [List.filterMap_eq_nil_iff]
      intro l hl
      unfold tscRecordOfLine
      rw [hall l hl]
    rw [hnil]
    simp

/-- Witness for `tsc_line_pattern_extraction`: the empty string has no
matching line and parses to the empty result. -/
theorem tsc_line_pattern_extraction_witness :
    (∀ l ∈ splitNl "".toList, tscLineCaps l = none) ∧
    parseTscOutput "" = { errorCount := 0, errors := [] } :=
  ⟨by decide, (tsc_line_pattern_extraction "").2.2.1 (by decide)⟩

/-! Theorems about the Biome JSON diagnostic normalizer. -/

/-- Helper: the per-diagnostic loop body only raises on nullish entries. -/
theorem biomeEmit_ok (d : JVal) (h1 : d ≠ .jundefined) (h2 : d ≠ .jnull) :
    biomeEmit d = .ok (biomeEmitCore d) := by
  unfold biomeEmit
  cases d
  · exact absurd rfl h1
  · exact absurd rfl h2
  all_goals rfl

/-- Helper: on a list of non-nullish entries the diagnostics loop completes
and emits exactly the `filterMap` of the per-entry emitter, in order. -/
theorem biomeDiagLoop_ok (ds : List JVal)
    (h : ∀ d ∈ ds, d ≠ .jundefined ∧ d ≠ .jnull) :
    biomeDiagLoop ds = .ok (ds.filterMap biomeEmitCore) := by
  induction ds with
  | nil => rfl
  | cons d rest ih =>
    have hd := h d (by simp)
    have hrest := ih (fun x hx => h x (List.mem_cons_of_mem _ hx))
    unfold biomeDiagLoop
    rw [biomeEmit_ok d hd.1 hd.2]
    simp only [bind, Except.bind, hrest]
    cases hco : biomeEmitCore d <;> simp [List.filterMap_cons, hco]

/-- Helper: full shape of the normalizer's result on an object report whose
`diagnostics` field is an array of non-nullish entries. -/
theorem biomeNormalize_obj (fs : List (String × JVal)) (ds : List JVal)
    (hd : jlookup fs "diagnostics" = .jarr ds)
    (hobj : ∀ d ∈ ds, d ≠ .jundefined ∧ d ≠ .jnull) :
    biomeNormalize (.jobj fs) = .ok
      { error_count :=
          match jgetOpt (if jtruthy (jlookup fs "summary") then jlookup fs "summary"
                         else .jobj []) "errors" with
          | .jundefined => .jnum (sevCount "error" (ds.filterMap biomeEmitCore))
          | .jnull => .jnum (sevCount "error" (ds.filterMap biomeEmitCore))
          | v => v
        warning_count :=
          match jgetOpt (if jtruthy (jlookup fs "summary") then jlookup fs "summary"
                         else .jobj []) "warnings" with
          | .jundefined => .jnum (sevCount "warning" (ds.filterMap biomeEmitCore))
          | .jnull => .jnum (sevCount "warning" (ds.filterMap biomeEmitCore))
          | v => v
        diagnostics := ds.filterMap biomeEmitCore } := by
  unfold biomeNormalize
  simp only [jgetOpt]
  rw [hd]
  simp only [jtruthy, jelems, bind, Except.bind, biomeDiagLoop_ok ds hobj]
  simp

/-- C7: whenever the input is not parseable as the expected JSON shape —
`JSON.parse` itself throws, or the `try` body raises on the parsed value —
`parseBiomeOutput` does not propagate the fault: it returns `error_count = 1`,
`warning_count = 0`, and one synthetic diagnostic with severity `error`, the
fixed code `internal_error`, and a message embedding the first 200 characters
of the raw input. -/
theorem biome_failsafe_degrade (p : Option JVal) (raw : String)
    (h : p = none ∨ ∃ v, p = some v ∧ biomeNormalize v = .error ()) :
    parseBiomeOutput p raw =
      { error_count := .jnum 1
        warning_count := .jnum 0
        diagnostics :=
          [{ file := .jstr "unknown"
             message := .jstr ("Failed to parse Biome JSON output: " ++
               String.mk (raw.toList.take 200))
             code := .jstr "internal_error"
             line := .jnum 0
             severity := .jstr "error"
             suggestion := .jundefined }] } := by
  rcases h with h | ⟨v, hp, hv⟩
  · subst h; rfl
  · subst hp
    show (match biomeNormalize v with
          | .ok r => r
          | .error _ => parseBiomeSynthetic raw) = _
    rw [hv]
    rfl

/-- Witness for `biome_failsafe_degrade` on the unparseable input
`"not json"`. -/
theorem biome_failsafe_degrade_witness :
    parseBiomeOutput none "not json" =
      { error_count := .jnum 1
        warning_count := .jnum 0
        diagnostics :=
          [{ file := .jstr "unknown"
             message := .jstr "Failed to parse Biome JSON output: not json"
             code := .jstr "internal_error"
             line := .jnum 0
             severity := .jstr "error"
             suggestion := .jundefined }] } :=
  biome_failsafe_degrade none "not json" (Or.inl rfl)

/-- C8: on a well-formed report (an object whose `diagnostics` field is an
array of non-nullish entries) the normalizer emits exactly the entries whose
severity is the string `error` or `warning` (every emitted diagnostic has
one of these severities, and an entry is dropped exactly when its severity
is neither), attaches a serialized suggestion exactly when the entry's
`advice` is truthy, and takes `error_count`/`warning_count` from the
report's own `summary` object when present, deriving them by counting
emitted diagnostics per severity when no summary field exists. -/
theorem biome_report_normalization (fs : List (String × JVal)) (ds : List JVal)
    (hd : jlookup fs "diagnostics" = .jarr ds)
    (hobj : ∀ d ∈ ds, d ≠ .jundefined ∧ d ≠ .jnull) :
    (∃ ec wc, biomeNormalize (.jobj fs) =
        .ok { error_count := ec, warning_count := wc,
              diagnostics := ds.filterMap biomeEmitCore }) ∧
    (∀ diag ∈ ds.filterMap biomeEmitCore,
        diag.severity = .jstr "error" ∨ diag.severity = .jstr "warning") ∧
    (∀ d ∈ ds, biomeEmitCore d = none ↔
        ¬(jgetOpt d "severity" = .jstr "error" ∨ jgetOpt d "severity" = .jstr "warning")) ∧
    (∀ d ∈ ds, ∀ diag, biomeEmitCore d = some diag →
        (jtruthy (jgetOpt d "advice") = true →
          diag.suggestion = .jstr (jstringify (jgetOpt d "advice"))) ∧
        (jtruthy (jgetOpt d "advice") = false → diag.suggestion = .jundefined)) ∧
    (∀ (sfs : List (String × JVal)) (e w : Int),
        jlookup fs "summary" = .jobj sfs →
        jlookup sfs "errors" = .jnum e →
        jlookup sfs "warnings" = .jnum w →
        biomeNormalize (.jobj fs) =
          .ok { error_count := .jnum e, warning_count := .jnum w,
                diagnostics := ds.filterMap biomeEmitCore }) ∧
    (jlookup fs "summary" = .jundefined →
        biomeNormalize (.jobj fs) =
          .ok { error_count := .jnum (sevCount "error" (ds.filterMap biomeEmitCore))
                warning_count := .jnum (sevCount "warning" (ds.filterMap biomeEmitCore))
                diagnostics := ds.filterMap biomeEmitCore }) := by
  refine ⟨⟨_, _, biomeNormalize_obj fs ds hd hobj⟩, ?_, ?_, ?_, ?_, ?_⟩
  · intro diag hmem
    rw [List.mem_filterMap] at hmem
    obtain ⟨d, hdmem, hco⟩ := hmem
    unfold biomeEmitCore at hco
    split at hco
    · split at hco
      · next hcond =>
        injection hco with h1
        subst h1
        simp only [Bool.or_eq_true, decide_eq_true_eq] at hcond
        rcases hcond with h | h <;> [left; right] <;> simp [h]
      · exact absurd hco (by simp)
    · exact absurd hco (by simp)
  · intro d hdmem
    unfold biomeEmitCore
    cases hsev : jgetOpt d "severity"
    case jstr s =>
      by_cases he : s = "error"
      · simp [he]
      · by_cases hw : s = "warning" <;> simp [he, hw]
    all_goals simp
  · intro d hdmem diag hco
    unfold biomeEmitCore at hco
    split at hco
    · split at hco
      · injection hco with h1
        subst h1
        constructor <;> intro hadv <;> simp [hadv]
      · exact absurd hco (by simp)
    · exact absurd hco (by simp)
  · intro sfs e w hsum he hw
    rw [biomeNormalize_obj fs ds hd hobj, hsum]
    simp only [jtruthy, if_true, jgetOpt]
    rw [he, hw]
  · intro hsum
    rw [biomeNormalize_obj fs ds hd hobj, hsum]
    simp [jtruthy, jgetOpt, jlookup]

/-- Witness for `biome_report_normalization`: the spec's example — one
`error` and one `info` diagnostic, no summary — yields `error_count = 1`
with the `info` entry dropped and `warning_count = 0`. -/
theorem biome_report_normalization_witness :
    biomeNormalize (.jobj [("diagnostics",
        .jarr [.jobj [("severity", .jstr "error")], .jobj [("severity", .jstr "info")]])]) =
      .ok { error_count := .jnum 1, warning_count := .jnum 0,
            diagnostics := [{ file := .jstr "unknown", message := .jundefined,
                              code := .jstr "unknown", line := .jnum 0,
                              severity := .jstr "error", suggestion := .jundefined }] } :=
  (biome_report_normalization [("diagnostics",
      .jarr [.jobj [("severity", .jstr "error")], .jobj [("severity", .jstr "info")]])]
    [.jobj [("severity", .jstr "error")], .jobj [("severity", .jstr "info")]]
    rfl
    (by intro d hdm
        simp only [List.mem_cons, List.not_mem_nil, or_false] at hdm
        rcases hdm with h | h <;> subst h <;> exact ⟨by simp, by simp⟩)).2.2.2.2.2 rfl

/-- C10: for an emitted diagnostic (severity `error` or `warning`), a source
entry lacking a `location.path.file` value is given the file `unknown`, one
lacking a `location.span.start.line` value is given line `0`, one lacking a
`description` falls back to its `message` field, and one lacking a
`category` is given the code `unknown`. -/
theorem biome_missing_field_defaults (dm : List (String × JVal)) (s : String)
    (hsev : jlookup dm "severity" = .jstr s) (hs : s = "error" ∨ s = "warning") :
    (jgetOpt (jgetOpt (jgetOpt (JVal.jobj dm) "location") "path") "file" = .jundefined →
      (biomeEmitCore (.jobj dm)).map LintDiagnostic.file = some (.jstr "unknown")) ∧
    (jgetOpt (jgetOpt (jgetOpt (jgetOpt (JVal.jobj dm) "location") "span") "start") "line" = .jundefined →
      (biomeEmitCore (.jobj dm)).map LintDiagnostic.line = some (.jnum 0)) ∧
    (jlookup dm "description" = .jundefined →
      (biomeEmitCore (.jobj dm)).map LintDiagnostic.message = some (jlookup dm "message")) ∧
    (jlookup dm "category" = .jundefined →
      (biomeEmitCore (.jobj dm)).map LintDiagnostic.code = some (.jstr "unknown")) := by
  have hcond : (s = "error" || s = "warning") = true := by
    rcases hs with h | h <;> simp [h]
  unfold biomeEmitCore
  simp only [jgetOpt]
  rw [hsev]
  simp only [hcond, if_true]
  refine ⟨?_, ?_, ?_, ?_⟩ <;> intro h <;> simp [h, jtruthy]

/-- Witness for `biome_missing_field_defaults` on an entry with severity
`error` and every other field absent. -/
theorem biome_missing_field_defaults_witness :
    (biomeEmitCore (.jobj [("severity", .jstr "error")])).map LintDiagnostic.file =
      some (.jstr "unknown") ∧
    (biomeEmitCore (.jobj [("severity", .jstr "error")])).map LintDiagnostic.line =
      some (.jnum 0) ∧
    (biomeEmitCore (.jobj [("severity", .jstr "error")])).map LintDiagnostic.message =
      some .jundefined ∧
    (biomeEmitCore (.jobj [("severity", .jstr "error")])).map LintDiagnostic.code =
      some (.jstr "unknown") :=
  have h := biome_missing_field_defaults [("severity", .jstr "error")] "error" rfl (Or.inl rfl)
  ⟨h.1 rfl, h.2.1 rfl, h.2.2.1 rfl, h.2.2.2 rfl⟩

end SideQuest
